import Mathlib

/-!
Label operator: the pod reconciler.

A shallow embedding of `label-operator/controllers/pod_controller.go`.

* Go maps of type `map[string]string` are association lists, with `none` for
  the nil map; reading is by first match, writing replaces the first match (or
  appends), deleting removes every entry of the key.
* The Kubernetes client (`r.Get`, `r.Update`) is an interface over an explicit
  store state, so that `Reconcile` is a state-passing function.
* `Reconcile` returns, next to the Go return values, the list of events
  (store calls and log lines) it performed, in order.
-/

namespace PodController

/-! ## Go maps -/

/-- Entries of a non-nil `map[string]string`. -/
abbrev Entries := List (String × String)

/-- A Go value of type `map[string]string`; `none` is the nil map. -/
abbrev GoMap := Option Entries

/-- Two-valued read `v, ok := m[k]` on the entries of a map. -/
def Entries.lookup : Entries → String → Option String
  | [], _ => none
  | (k', v) :: rest, k => if k' = k then some v else Entries.lookup rest k

/-- Assignment `m[k] = v` on the entries of a (non-nil) map. -/
def Entries.set : Entries → String → String → Entries
  | [], k, v => [(k, v)]
  | (k', v') :: rest, k, v =>
    if k' = k then (k', v) :: rest else (k', v') :: Entries.set rest k v

/-- Removal of a key from the entries of a map. -/
def Entries.delete (m : Entries) (k : String) : Entries :=
  m.filter (fun e => decide (e.1 ≠ k))

/-- Two-valued read `v, ok := m[k]`; a nil map has no key. -/
def GoMap.lookup (m : GoMap) (k : String) : Option String :=
  match m with
  | none => none
  | some es => es.lookup k

/-- Index expression `m[k]`: the zero value `""` when the key is absent or the
map is nil. -/
def GoMap.get (m : GoMap) (k : String) : String :=
  (m.lookup k).getD ""

/-- Builtin `delete(m, k)`: a no-op on the nil map. -/
def GoMap.delete (m : GoMap) (k : String) : GoMap :=
  match m with
  | none => none
  | some es => some (es.delete k)

/-! ## Kubernetes objects, errors and the client interface -/

/-- Key `types.NamespacedName` of a request. -/
structure NamespacedName where
  Namespace : String
  Name : String
  deriving DecidableEq, Repr

/-- The fields of `corev1.Pod` the reconciler can observe; `Rest` stands for
every other field (spec, status, remaining metadata). -/
structure Pod where
  Name : String
  Namespace : String
  ResourceVersion : String
  Labels : GoMap
  Annotations : GoMap
  Rest : String
  deriving DecidableEq, Repr

/-- An error returned by the client; `Reason` is the `metav1.StatusReason` of
an API status error (`""` for any other error). -/
structure APIError where
  Reason : String
  Message : String
  deriving DecidableEq, Repr

/-- Test `apierrors.IsNotFound`. -/
def IsNotFound (e : APIError) : Bool := e.Reason == "NotFound"

/-- Test `apierrors.IsConflict`. -/
def IsConflict (e : APIError) : Bool := e.Reason == "Conflict"

/-- Value `ctrl.Result`. -/
structure Result where
  Requeue : Bool := false
  RequeueAfter : Nat := 0
  deriving DecidableEq, Repr

/-- The embedded `client.Client`, over a store state `σ`: `Get` yields the
fetched pod or an error, `Update` yields `none` for a nil error. -/
structure Client (σ : Type) where
  Get : NamespacedName → σ → Except APIError Pod × σ
  Update : Pod → σ → Option APIError × σ

/-- What one call of `Reconcile` does, in order: store calls and log lines. -/
inductive Event where
  | get (key : NamespacedName)
  | update (obj : Pod)
  | info (msg : String)
  | error (err : APIError) (msg : String)
  deriving DecidableEq, Repr

/-- Outcome of running `Reconcile`: the returned `(ctrl.Result, error)`, the
events performed and the store state left behind. -/
structure Run (σ : Type) where
  result : Result
  err : Option APIError
  events : List Event
  store : σ

/-! ## The reconciler -/

def addPodNameLabelAnnotation : String := "barkardk.info/add-pod-name-label"

def podNameLabel : String := "barkardk.info/pod-name"

/-- Line 67: `pod.Annotations[addPodNameLabelAnnotation] == "true"`. -/
def labelShouldBePresent (pod : Pod) : Bool :=
  pod.Annotations.get addPodNameLabelAnnotation == "true"

/-- Line 68: `pod.Labels[podNameLabel] == pod.Name`. -/
def labelIsPresent (pod : Pod) : Bool :=
  pod.Labels.get podNameLabel == pod.Name

/-- Lines 75-85: add the label (creating the map when nil) or delete it. -/
def mutate (pod : Pod) : Pod :=
  if labelShouldBePresent pod then
    let labels : Entries :=
      match pod.Labels with
      | none => []
      | some es => es
    { pod with Labels := some (labels.set podNameLabel pod.Name) }
  else
    { pod with Labels := pod.Labels.delete podNameLabel }

/-- Log line written by `mutate`'s branch (lines 80 and 84). -/
def mutateLog (pod : Pod) : String :=
  if labelShouldBePresent pod then "adding label" else "removing label"

/-- Method `(*PodReconciler).Reconcile` on the client `c`, request key `req`
and store state `s`. -/
def Reconcile {σ : Type} (c : Client σ) (req : NamespacedName) (s : σ) : Run σ :=
  match c.Get req s with
  | (Except.error err, s1) =>
    if IsNotFound err then
      { result := {}, err := none, events := [Event.get req], store := s1 }
    else
      { result := {}, err := some err,
        events := [Event.get req, Event.error err "unable to fetch pod"], store := s1 }
  | (Except.ok pod, s1) =>
    if labelShouldBePresent pod == labelIsPresent pod then
      { result := {}, err := none,
        events := [Event.get req, Event.info "no update required"], store := s1 }
    else
      let pod' := mutate pod
      match c.Update pod' s1 with
      | (some err, s2) =>
        if IsConflict err then
          { result := { Requeue := true }, err := none,
            events := [Event.get req, Event.info (mutateLog pod), Event.update pod'],
            store := s2 }
        else
          { result := {}, err := some err,
            events := [Event.get req, Event.info (mutateLog pod), Event.update pod',
              Event.error err "unable to update pod"],
            store := s2 }
      | (none, s2) =>
        { result := {}, err := none,
          events := [Event.get req, Event.info (mutateLog pod), Event.update pod'],
          store := s2 }

/-- The `Update` calls of a run, in order, each with the object passed. -/
def updates : List Event → List Pod
  | [] => []
  | Event.update obj :: rest => obj :: updates rest
  | _ :: rest => updates rest

/-- The store calls of a run, in order (log lines dropped). -/
def storeCalls (evs : List Event) : List Event :=
  evs.filter (fun e =>
    match e with
    | Event.get _ => true
    | Event.update _ => true
    | _ => false)

/-! ## The vocabulary of the specification -/

/-- Intent Flag, in the words of the specification: the annotation
`barkardk.info/add-pod-name-label` is present with value exactly `"true"`. -/
def IntentFlag (pod : Pod) : Bool :=
  pod.Annotations.lookup addPodNameLabelAnnotation == some "true"

/-- Derived Label State, in the words of the specification: the label
`barkardk.info/pod-name` is present and its value equals the pod name. -/
def DerivedLabelState (pod : Pod) : Bool :=
  pod.Labels.lookup podNameLabel == some pod.Name

/-! ## Clients used to run the reconciler on concrete inputs -/

/-- A stub client with fixed answers: `Get` returns `g`, `Update` returns `u`,
and the store state (the list of objects written so far) grows only on a
successful write. -/
def stubClient (g : Except APIError Pod) (u : Option APIError) : Client (List Pod) where
  Get := fun _ s => (g, s)
  Update := fun obj s =>
    match u with
    | none => (none, s ++ [obj])
    | some e => (some e, s)

/-- Key under which the store holds a pod. -/
def podKey (p : Pod) : NamespacedName := ⟨p.Namespace, p.Name⟩

/-- The stored object of key `k`, if any. -/
def fetch : List Pod → NamespacedName → Option Pod
  | [], _ => none
  | p :: rest, k => if podKey p = k then some p else fetch rest k

/-- Store `obj` in place of the stored object of the same key (appended when
the key is new). -/
def put : List Pod → Pod → List Pod
  | [], obj => [obj]
  | p :: rest, obj => if podKey p = podKey obj then obj :: rest else p :: put rest obj

/-- An in-memory store: `Get` returns the stored object (a not-found error
when there is none) and `Update` succeeds and stores the written object. -/
def memClient : Client (List Pod) where
  Get := fun k s =>
    match fetch s k with
    | some p => (Except.ok p, s)
    | none => (Except.error ⟨"NotFound", "pod not found"⟩, s)
  Update := fun obj s => (none, put s obj)

/-- Reconciliation Outcome of the specification. -/
inductive Outcome where
  | NoOpRequired
  | Applied
  | Conflict
  | TransientError
  | NotFound
  deriving DecidableEq, Repr

/-- Reconciliation Outcome of the specification, read off a run: an error
returned is TransientError, a requeue is Conflict, a write that went through is
Applied, the comparator's early return (its log line) is NoOpRequired, and the
remaining early return is NotFound. -/
def outcomeOf {σ : Type} (r : Run σ) : Outcome :=
  if r.err.isSome then Outcome.TransientError
  else if r.result.Requeue then Outcome.Conflict
  else if (updates r.events).length ≠ 0 then Outcome.Applied
  else if Event.info "no update required" ∈ r.events then Outcome.NoOpRequired
  else Outcome.NotFound

/-- A pod whose name is the empty string, with nil annotations and labels. -/
def emptyNamePod : Pod :=
  { Name := "", Namespace := "default", ResourceVersion := "1",
    Labels := none, Annotations := none, Rest := "" }

/-- A pod whose name is the empty string and whose annotation asks for the
label. -/
def emptyNameWantsLabel : Pod :=
  { Name := "", Namespace := "default", ResourceVersion := "1",
    Labels := none, Annotations := some [( addPodNameLabelAnnotation, "true")], Rest := "" }

/-- A pod `web` that asks for the label and does not carry it yet. -/
def webPod : Pod :=
  { Name := "web", Namespace := "default", ResourceVersion := "7",
    Labels := some [("app", "shop")],
    Annotations := some [( addPodNameLabelAnnotation, "true")], Rest := "spec" }

/-- A pod `web` that carries the label without asking for it. -/
def labelledPod : Pod :=
  { Name := "web", Namespace := "default", ResourceVersion := "7",
    Labels := some [("app", "shop"), (podNameLabel, "web")],
    Annotations := none, Rest := "spec" }

/-- The request key of `webPod` and `labelledPod`. -/
def webKey : NamespacedName := ⟨"default", "web"⟩

/-- A conflict error as the API server reports it. -/
def conflictErr : APIError := ⟨"Conflict", "the object has been modified"⟩

/-- An error that is neither not-found nor conflict. -/
def timeoutErr : APIError := ⟨"Timeout", "request timed out"⟩

/-- Number of keys of a non-nil map: an entry counts unless its key occurs
again further on. -/
def Entries.len : Entries → Nat
  | [] => 0
  | (k, _) :: rest =>
    if (Entries.lookup rest k).isSome then Entries.len rest else Entries.len rest + 1

/-- Builtin `len(m)`: the number of keys, zero for the nil map. -/
def GoMap.len (m : GoMap) : Nat :=
  match m with
  | none => 0
  | some es => es.len

/-- The three ways lines 69-85 can go. -/
inductive Decision where
  | NoOp
  | AddLabel
  | RemoveLabel
  deriving DecidableEq, Repr

/-- The branch lines 69 and 75 select for a fetched pod. -/
def decision (pod : Pod) : Decision :=
  if labelShouldBePresent pod == labelIsPresent pod then Decision.NoOp
  else if labelShouldBePresent pod then Decision.AddLabel
  else Decision.RemoveLabel

/-- A pod `web` that asks for the label and carries it with a wrong value. -/
def wrongValuePod : Pod :=
  { Name := "web", Namespace := "default", ResourceVersion := "7",
    Labels := some [("app", "shop"), (podNameLabel, "old")],
    Annotations := some [( addPodNameLabelAnnotation, "true")], Rest := "spec" }

/-- A pod `web` that does not ask for the label and carries it with a wrong
value. -/
def stalePod : Pod :=
  { Name := "web", Namespace := "default", ResourceVersion := "7",
    Labels := some [("app", "shop"), (podNameLabel, "old")],
    Annotations := some [( addPodNameLabelAnnotation, "false")], Rest := "spec" }

/-- A pod `web` with neither the annotation nor the label. -/
def plainPod : Pod :=
  { Name := "web", Namespace := "default", ResourceVersion := "7",
    Labels := some [("app", "shop")], Annotations := none, Rest := "spec" }

/-- A pod in another namespace that agrees with `webPod` on the annotation, the
label and the name, and on nothing else. -/
def otherWebPod : Pod :=
  { Name := "web", Namespace := "staging", ResourceVersion := "42",
    Labels := some [("tier", "front"), ("app", "blog")],
    Annotations := some [("owner", "ops"), ( addPodNameLabelAnnotation, "true")],
    Rest := "other spec" }

/-! ## Maps: reading after writing -/

theorem Entries.lookup_set_self (es : Entries) (k v : String) :
    (es.set k v).lookup k = some v := by
  induction es with
  | nil => simp [Entries.set, Entries.lookup]
  | cons e rest ih =>
    obtain ⟨k', v'⟩ := e
    by_cases h : k' = k
    · simp [Entries.set, Entries.lookup, h]
    · simp [Entries.set, Entries.lookup, h, ih]

theorem Entries.lookup_set_ne (es : Entries) (k v j : String) (hj : j ≠ k) :
    (es.set k v).lookup j = es.lookup j := by
  have hkj : ¬ k = j := fun h => hj h.symm
  induction es with
  | nil => simp [Entries.set, Entries.lookup, hkj]
  | cons e rest ih =>
    obtain ⟨k', v'⟩ := e
    by_cases h : k' = k
    · subst h
      simp [Entries.set, Entries.lookup, hkj]
    · by_cases h2 : k' = j
      · subst h2
        simp [Entries.set, Entries.lookup, h]
      · simp [Entries.set, Entries.lookup, h, h2, ih]

theorem Entries.lookup_delete_self (es : Entries) (k : String) :
    (es.delete k).lookup k = none := by
  induction es with
  | nil => simp [Entries.delete, Entries.lookup]
  | cons e rest ih =>
    obtain ⟨k', v'⟩ := e
    by_cases h : k' = k
    · simpa [Entries.delete, h] using ih
    · simpa [Entries.delete, Entries.lookup, h] using ih

theorem Entries.lookup_delete_ne (es : Entries) (k j : String) (hj : j ≠ k) :
    (es.delete k).lookup j = es.lookup j := by
  have hkj : ¬ k = j := fun h => hj h.symm
  induction es with
  | nil => simp [Entries.delete, Entries.lookup]
  | cons e rest ih =>
    obtain ⟨k', v'⟩ := e
    by_cases h : k' = k
    · subst h
      simpa [Entries.delete, Entries.lookup, hkj] using ih
    · by_cases h2 : k' = j
      · subst h2
        simp [Entries.delete, Entries.lookup, h]
      · simpa [Entries.delete, Entries.lookup, h, h2] using ih

theorem Entries.lookup_cons_ne (k' v' k : String) (rest : Entries) (h : ¬ k' = k) :
    Entries.lookup ((k', v') :: rest) k = Entries.lookup rest k := by
  simp [Entries.lookup, h]

theorem Entries.len_set_of_present (es : Entries) (k v w : String)
    (h : es.lookup k = some w) : (es.set k v).len = es.len := by
  induction es with
  | nil => simp [Entries.lookup] at h
  | cons e rest ih =>
    obtain ⟨k', v'⟩ := e
    by_cases hk : k' = k
    · subst hk
      simp [Entries.set, Entries.len]
    · rw [Entries.lookup_cons_ne k' v' k rest hk] at h
      have hk2 : k' ≠ k := hk
      simp [Entries.set, Entries.len, hk, ih h, Entries.lookup_set_ne rest k v k' hk2]

theorem Entries.len_delete_of_absent (es : Entries) (k : String)
    (h : es.lookup k = none) : (es.delete k).len = es.len := by
  induction es with
  | nil => simp [Entries.delete]
  | cons e rest ih =>
    obtain ⟨k', v'⟩ := e
    by_cases hk : k' = k
    · subst hk
      simp [Entries.lookup] at h
    · rw [Entries.lookup_cons_ne k' v' k rest hk] at h
      have hk2 : k' ≠ k := hk
      have hd : Entries.delete ((k', v') :: rest) k = (k', v') :: Entries.delete rest k := by
        simp [Entries.delete, hk]
      rw [hd]
      simp [Entries.len, ih h, Entries.lookup_delete_ne rest k k' hk2]

theorem Entries.len_delete_of_present (es : Entries) (k w : String)
    (h : es.lookup k = some w) : (es.delete k).len + 1 = es.len := by
  induction es generalizing w with
  | nil => simp [Entries.lookup] at h
  | cons e rest ih =>
    obtain ⟨k', v'⟩ := e
    by_cases hk : k' = k
    · subst hk
      have hd : Entries.delete ((k', v') :: rest) k' = Entries.delete rest k' := by
        simp [Entries.delete]
      rw [hd]
      cases hr : Entries.lookup rest k' with
      | none => simp [Entries.len, hr, Entries.len_delete_of_absent rest k' hr]
      | some u => simp [Entries.len, hr, ih u hr]
    · rw [Entries.lookup_cons_ne k' v' k rest hk] at h
      have hk2 : k' ≠ k := hk
      have hd : Entries.delete ((k', v') :: rest) k = (k', v') :: Entries.delete rest k := by
        simp [Entries.delete, hk]
      rw [hd]
      have := ih w h
      simp only [Entries.len, Entries.lookup_delete_ne rest k k' hk2]
      split <;> omega

/-! ## The decision and the mutation -/

theorem labelShouldBePresent_eq_IntentFlag (pod : Pod) :
    labelShouldBePresent pod = IntentFlag pod := by
  unfold labelShouldBePresent IntentFlag GoMap.get
  cases h : pod.Annotations.lookup addPodNameLabelAnnotation with
  | none => decide
  | some v => simp

theorem labelIsPresent_eq_DerivedLabelState (pod : Pod) (hname : pod.Name ≠ "") :
    labelIsPresent pod = DerivedLabelState pod := by
  unfold labelIsPresent DerivedLabelState GoMap.get
  cases h : pod.Labels.lookup podNameLabel with
  | none =>
    have : ¬ "" = pod.Name := fun h => hname h.symm
    simp [this]
  | some v => simp

theorem mutate_Name (pod : Pod) : (mutate pod).Name = pod.Name := by
  unfold mutate; split <;> rfl

theorem mutate_Namespace (pod : Pod) : (mutate pod).Namespace = pod.Namespace := by
  unfold mutate; split <;> rfl

theorem mutate_ResourceVersion (pod : Pod) :
    (mutate pod).ResourceVersion = pod.ResourceVersion := by
  unfold mutate; split <;> rfl

theorem mutate_Annotations (pod : Pod) : (mutate pod).Annotations = pod.Annotations := by
  unfold mutate; split <;> rfl

theorem mutate_Rest (pod : Pod) : (mutate pod).Rest = pod.Rest := by
  unfold mutate; split <;> rfl

theorem mutate_lookup_label (pod : Pod) :
    (mutate pod).Labels.lookup podNameLabel =
      if labelShouldBePresent pod then some pod.Name else none := by
  unfold mutate
  by_cases h : labelShouldBePresent pod = true
  · simp [h, GoMap.lookup, Entries.lookup_set_self]
  · simp only [h, if_false]
    cases hl : pod.Labels with
    | none => simp [GoMap.delete, GoMap.lookup, Bool.false_eq_true]
    | some es => simp [GoMap.delete, GoMap.lookup, Entries.lookup_delete_self, Bool.false_eq_true]

theorem mutate_lookup_other (pod : Pod) (k : String) (hk : k ≠ podNameLabel) :
    (mutate pod).Labels.lookup k = pod.Labels.lookup k := by
  unfold mutate
  by_cases h : labelShouldBePresent pod = true
  · cases hl : pod.Labels with
    | none =>
      have : ¬ podNameLabel = k := fun h => hk h.symm
      simp [h, GoMap.lookup, Entries.set, Entries.lookup, this]
    | some es => simp [h, GoMap.lookup, Entries.lookup_set_ne _ _ _ _ hk]
  · cases hl : pod.Labels with
    | none => simp [h, GoMap.delete, GoMap.lookup]
    | some es => simp [h, GoMap.delete, GoMap.lookup, Entries.lookup_delete_ne _ _ _ hk]

theorem labelShouldBePresent_mutate (pod : Pod) :
    labelShouldBePresent (mutate pod) = labelShouldBePresent pod := by
  unfold labelShouldBePresent
  rw [mutate_Annotations]

theorem DerivedLabelState_mutate (pod : Pod) :
    DerivedLabelState (mutate pod) = labelShouldBePresent pod := by
  unfold DerivedLabelState
  rw [mutate_lookup_label, mutate_Name]
  by_cases h : labelShouldBePresent pod = true
  · simp [h]
  · simp [h]

/-! ## The branches of `Reconcile` -/

theorem Reconcile_get_notFound {σ : Type} (c : Client σ) (req : NamespacedName) (s : σ)
    (e : APIError) (hget : (c.Get req s).1 = Except.error e) (hnf : IsNotFound e = true) :
    Reconcile c req s =
      { result := {}, err := none, events := [Event.get req], store := (c.Get req s).2 } := by
  unfold Reconcile
  rcases hg : c.Get req s with ⟨g, s1⟩
  rw [hg] at hget
  simp only at hget
  subst hget
  simp [hnf]

theorem Reconcile_get_failed {σ : Type} (c : Client σ) (req : NamespacedName) (s : σ)
    (e : APIError) (hget : (c.Get req s).1 = Except.error e) (hnf : IsNotFound e = false) :
    Reconcile c req s =
      { result := {}, err := some e,
        events := [Event.get req, Event.error e "unable to fetch pod"],
        store := (c.Get req s).2 } := by
  unfold Reconcile
  rcases hg : c.Get req s with ⟨g, s1⟩
  rw [hg] at hget
  simp only at hget
  subst hget
  simp [hnf]

theorem Reconcile_noop {σ : Type} (c : Client σ) (req : NamespacedName) (s : σ)
    (pod : Pod) (hget : (c.Get req s).1 = Except.ok pod)
    (heq : labelShouldBePresent pod = labelIsPresent pod) :
    Reconcile c req s =
      { result := {}, err := none,
        events := [Event.get req, Event.info "no update required"],
        store := (c.Get req s).2 } := by
  unfold Reconcile
  rcases hg : c.Get req s with ⟨g, s1⟩
  rw [hg] at hget
  simp only at hget
  subst hget
  simp [heq]

theorem Reconcile_applied {σ : Type} (c : Client σ) (req : NamespacedName) (s : σ)
    (pod : Pod) (hget : (c.Get req s).1 = Except.ok pod)
    (hne : labelShouldBePresent pod ≠ labelIsPresent pod)
    (hupd : (c.Update (mutate pod) (c.Get req s).2).1 = none) :
    Reconcile c req s =
      { result := {}, err := none,
        events := [Event.get req, Event.info (mutateLog pod), Event.update (mutate pod)],
        store := (c.Update (mutate pod) (c.Get req s).2).2 } := by
  unfold Reconcile
  rcases hg : c.Get req s with ⟨g, s1⟩
  rw [hg] at hget hupd
  simp only at hget hupd
  subst hget
  rcases hu : c.Update (mutate pod) s1 with ⟨u, s2⟩
  rw [hu] at hupd
  simp only at hupd
  subst hupd
  simp [hne, hu]

theorem Reconcile_conflict {σ : Type} (c : Client σ) (req : NamespacedName) (s : σ)
    (pod : Pod) (e : APIError) (hget : (c.Get req s).1 = Except.ok pod)
    (hne : labelShouldBePresent pod ≠ labelIsPresent pod)
    (hupd : (c.Update (mutate pod) (c.Get req s).2).1 = some e)
    (hc : IsConflict e = true) :
    Reconcile c req s =
      { result := { Requeue := true }, err := none,
        events := [Event.get req, Event.info (mutateLog pod), Event.update (mutate pod)],
        store := (c.Update (mutate pod) (c.Get req s).2).2 } := by
  unfold Reconcile
  rcases hg : c.Get req s with ⟨g, s1⟩
  rw [hg] at hget hupd
  simp only at hget hupd
  subst hget
  rcases hu : c.Update (mutate pod) s1 with ⟨u, s2⟩
  rw [hu] at hupd
  simp only at hupd
  subst hupd
  simp [hne, hu, hc]

theorem Reconcile_update_failed {σ : Type} (c : Client σ) (req : NamespacedName) (s : σ)
    (pod : Pod) (e : APIError) (hget : (c.Get req s).1 = Except.ok pod)
    (hne : labelShouldBePresent pod ≠ labelIsPresent pod)
    (hupd : (c.Update (mutate pod) (c.Get req s).2).1 = some e)
    (hc : IsConflict e = false) :
    Reconcile c req s =
      { result := {}, err := some e,
        events := [Event.get req, Event.info (mutateLog pod), Event.update (mutate pod),
          Event.error e "unable to update pod"],
        store := (c.Update (mutate pod) (c.Get req s).2).2 } := by
  unfold Reconcile
  rcases hg : c.Get req s with ⟨g, s1⟩
  rw [hg] at hget hupd
  simp only at hget hupd
  subst hget
  rcases hu : c.Update (mutate pod) s1 with ⟨u, s2⟩
  rw [hu] at hupd
  simp only at hupd
  subst hupd
  simp [hne, hu, hc]

theorem updates_Reconcile_of_ne {σ : Type} (c : Client σ) (req : NamespacedName) (s : σ)
    (pod : Pod) (hget : (c.Get req s).1 = Except.ok pod)
    (hne : labelShouldBePresent pod ≠ labelIsPresent pod) :
    updates (Reconcile c req s).events = [mutate pod] := by
  cases hu : (c.Update (mutate pod) (c.Get req s).2).1 with
  | none => rw [Reconcile_applied c req s pod hget hne hu]; rfl
  | some e =>
    cases hc : IsConflict e with
    | true => rw [Reconcile_conflict c req s pod e hget hne hu hc]; rfl
    | false => rw [Reconcile_update_failed c req s pod e hget hne hu hc]; rfl

theorem updates_Reconcile_of_error {σ : Type} (c : Client σ) (req : NamespacedName) (s : σ)
    (e : APIError) (hget : (c.Get req s).1 = Except.error e) :
    updates (Reconcile c req s).events = [] := by
  cases hnf : IsNotFound e with
  | true => rw [Reconcile_get_notFound c req s e hget hnf]; rfl
  | false => rw [Reconcile_get_failed c req s e hget hnf]; rfl

/-! ## The comparator and the mutation (C1 - C4) -/

/-- C1 (amended): for every pod with a non-empty name returned by a successful
fetch, `Reconcile` takes the no-update branch (no `Update` call, empty result,
nil error) if and only if the Intent Flag equals the Derived Label State. -/
theorem Reconcile_noUpdate_iff {σ : Type} (c : Client σ) (req : NamespacedName) (s : σ)
    (pod : Pod) (hget : (c.Get req s).1 = Except.ok pod) (hname : pod.Name ≠ "") :
    (updates (Reconcile c req s).events = [] ∧ (Reconcile c req s).result = {} ∧
        (Reconcile c req s).err = none) ↔
      IntentFlag pod = DerivedLabelState pod := by
  rw [← labelShouldBePresent_eq_IntentFlag, ← labelIsPresent_eq_DerivedLabelState pod hname]
  by_cases heq : labelShouldBePresent pod = labelIsPresent pod
  · rw [Reconcile_noop c req s pod hget heq]
    simp [updates, heq]
  · rw [updates_Reconcile_of_ne c req s pod hget heq]
    simp [heq]

/-- C1, on a pod that asks for the label and lacks it: the flags differ and
the run is not the no-update branch. -/
theorem Reconcile_noUpdate_iff_witness :
    ((stubClient (Except.ok webPod) none).Get webKey []).1 = Except.ok webPod ∧
      webPod.Name ≠ "" ∧
      ((updates (Reconcile (stubClient (Except.ok webPod) none) webKey []).events = [] ∧
          (Reconcile (stubClient (Except.ok webPod) none) webKey []).result = {} ∧
          (Reconcile (stubClient (Except.ok webPod) none) webKey []).err = none) ↔
        IntentFlag webPod = DerivedLabelState webPod) :=
  ⟨rfl, by decide, Reconcile_noUpdate_iff _ _ _ _ rfl (by decide)⟩

/-- C1 as stated fails on a pod whose name is the empty string and that has
neither the annotation nor the label: the Intent Flag and the Derived Label
State agree (both false), yet `Reconcile` calls `Update`. -/
theorem Reconcile_noUpdate_iff_emptyName :
    IntentFlag emptyNamePod = DerivedLabelState emptyNamePod ∧
      (Reconcile (stubClient (Except.ok emptyNamePod) none) ⟨"default", ""⟩ []).events =
        [Event.get ⟨"default", ""⟩, Event.info "removing label", Event.update emptyNamePod] ∧
      updates (Reconcile (stubClient (Except.ok emptyNamePod) none) ⟨"default", ""⟩ []).events
        ≠ [] := by
  refine ⟨by decide, by decide, by decide⟩

/-- C2 (amended): for every fetched pod with a non-empty name on which
`Reconcile` decides to mutate, the object it passes to `Update` is the mutated
pod, and the decision re-evaluated on that pod is the no-update decision. -/
theorem mutate_then_decide_noop {σ : Type} (c : Client σ) (req : NamespacedName) (s : σ)
    (pod : Pod) (hget : (c.Get req s).1 = Except.ok pod) (hname : pod.Name ≠ "")
    (hne : labelShouldBePresent pod ≠ labelIsPresent pod) :
    updates (Reconcile c req s).events = [mutate pod] ∧
      labelShouldBePresent (mutate pod) = labelIsPresent (mutate pod) := by
  refine ⟨updates_Reconcile_of_ne c req s pod hget hne, ?_⟩
  have hn : (mutate pod).Name ≠ "" := by rw [mutate_Name]; exact hname
  rw [labelIsPresent_eq_DerivedLabelState _ hn, DerivedLabelState_mutate,
    labelShouldBePresent_mutate]

/-- C2, on a pod that asks for the label and lacks it. -/
theorem mutate_then_decide_noop_witness :
    ((stubClient (Except.ok webPod) none).Get webKey []).1 = Except.ok webPod ∧
      webPod.Name ≠ "" ∧ labelShouldBePresent webPod ≠ labelIsPresent webPod ∧
      updates (Reconcile (stubClient (Except.ok webPod) none) webKey []).events
        = [mutate webPod] ∧
      labelShouldBePresent (mutate webPod) = labelIsPresent (mutate webPod) :=
  ⟨rfl, by decide, by decide,
    mutate_then_decide_noop _ _ _ _ rfl (by decide) (by decide)⟩

/-- C2 as stated fails on a pod whose name is the empty string and that has
neither the annotation nor the label: `Reconcile` decides to mutate, and on the
mutated pod the decision is again to mutate. -/
theorem mutate_then_decide_emptyName :
    labelShouldBePresent emptyNamePod ≠ labelIsPresent emptyNamePod ∧
      updates (Reconcile (stubClient (Except.ok emptyNamePod) none) ⟨"default", ""⟩ []).events
        = [mutate emptyNamePod] ∧
      labelShouldBePresent (mutate emptyNamePod) ≠ labelIsPresent (mutate emptyNamePod) := by
  refine ⟨by decide, by decide, by decide⟩

/-- C3: for every fetched pod, an object that `Reconcile` passes to `Update`
has the name, namespace, version token, annotations and remaining fields of the
fetched pod, and every label key other than `barkardk.info/pod-name` has the
same presence and value as in the fetched pod. -/
theorem Reconcile_update_frame {σ : Type} (c : Client σ) (req : NamespacedName) (s : σ)
    (pod obj : Pod) (hget : (c.Get req s).1 = Except.ok pod)
    (hobj : obj ∈ updates (Reconcile c req s).events) :
    obj.Name = pod.Name ∧ obj.Namespace = pod.Namespace ∧
      obj.ResourceVersion = pod.ResourceVersion ∧ obj.Annotations = pod.Annotations ∧
      obj.Rest = pod.Rest ∧
      ∀ k : String, k ≠ podNameLabel → obj.Labels.lookup k = pod.Labels.lookup k := by
  by_cases heq : labelShouldBePresent pod = labelIsPresent pod
  · rw [Reconcile_noop c req s pod hget heq] at hobj
    simp [updates] at hobj
  · rw [updates_Reconcile_of_ne c req s pod hget heq] at hobj
    have h : obj = mutate pod := by simpa using hobj
    subst h
    exact ⟨mutate_Name pod, mutate_Namespace pod, mutate_ResourceVersion pod,
      mutate_Annotations pod, mutate_Rest pod, fun k hk => mutate_lookup_other pod k hk⟩

/-- C3, on a pod that carries the label without asking for it: the object
written keeps the label `app`. -/
theorem Reconcile_update_frame_witness :
    ((stubClient (Except.ok labelledPod) none).Get webKey []).1 = Except.ok labelledPod ∧
      mutate labelledPod ∈
        updates (Reconcile (stubClient (Except.ok labelledPod) none) webKey []).events ∧
      ((mutate labelledPod).Name = labelledPod.Name ∧
        (mutate labelledPod).Namespace = labelledPod.Namespace ∧
        (mutate labelledPod).ResourceVersion = labelledPod.ResourceVersion ∧
        (mutate labelledPod).Annotations = labelledPod.Annotations ∧
        (mutate labelledPod).Rest = labelledPod.Rest ∧
        ∀ k : String, k ≠ podNameLabel →
          (mutate labelledPod).Labels.lookup k = labelledPod.Labels.lookup k) :=
  ⟨rfl, by decide,
    Reconcile_update_frame (stubClient (Except.ok labelledPod) none) webKey [] labelledPod
      (mutate labelledPod) rfl (by decide)⟩

/-- C4: for every fetched pod for which `Reconcile` issues an `Update` that
succeeds, the object written has its Intent Flag equal to its Derived Label
State. -/
theorem Reconcile_written_invariant {σ : Type} (c : Client σ) (req : NamespacedName) (s : σ)
    (pod obj : Pod) (hget : (c.Get req s).1 = Except.ok pod)
    (hobj : obj ∈ updates (Reconcile c req s).events)
    (hok : (c.Update obj (c.Get req s).2).1 = none) :
    (Reconcile c req s).err = none ∧ IntentFlag obj = DerivedLabelState obj := by
  by_cases heq : labelShouldBePresent pod = labelIsPresent pod
  · rw [Reconcile_noop c req s pod hget heq] at hobj
    simp [updates] at hobj
  · rw [updates_Reconcile_of_ne c req s pod hget heq] at hobj
    have h : obj = mutate pod := by simpa using hobj
    subst h
    rw [Reconcile_applied c req s pod hget heq hok]
    refine ⟨rfl, ?_⟩
    rw [← labelShouldBePresent_eq_IntentFlag, DerivedLabelState_mutate,
      labelShouldBePresent_mutate]

/-- C4, on a pod whose name is the empty string: the write goes through and
the object written has both flags false. -/
theorem Reconcile_written_invariant_witness :
    ((stubClient (Except.ok emptyNamePod) none).Get ⟨"default", ""⟩ []).1
        = Except.ok emptyNamePod ∧
      mutate emptyNamePod ∈
        updates (Reconcile (stubClient (Except.ok emptyNamePod) none) ⟨"default", ""⟩ []).events ∧
      ((stubClient (Except.ok emptyNamePod) none).Update (mutate emptyNamePod)
        ((stubClient (Except.ok emptyNamePod) none).Get ⟨"default", ""⟩ []).2).1 = none ∧
      ((Reconcile (stubClient (Except.ok emptyNamePod) none) ⟨"default", ""⟩ []).err = none ∧
        IntentFlag (mutate emptyNamePod) = DerivedLabelState (mutate emptyNamePod)) :=
  ⟨rfl, by decide, rfl, Reconcile_written_invariant _ _ _ _ _ rfl (by decide) rfl⟩

/-! ## Errors and requeue (C5 - C7) -/

/-- C5: `Reconcile` returns `Result{Requeue: true}` if and only if the fetch
succeeded, a mutation was needed and the `Update` call failed with a conflict
error; then the returned error is nil, the store calls are exactly the `Get`
and that one `Update`, the store is left as that `Update` left it, and it is
the store `Reconcile` started from when fetches do not write and a rejected
write changes nothing. -/
theorem Reconcile_requeue_iff {σ : Type} (c : Client σ) (req : NamespacedName) (s : σ) :
    ((Reconcile c req s).result = { Requeue := true } ↔
        ∃ pod e, (c.Get req s).1 = Except.ok pod ∧
          labelShouldBePresent pod ≠ labelIsPresent pod ∧
          (c.Update (mutate pod) (c.Get req s).2).1 = some e ∧ IsConflict e = true) ∧
      ((Reconcile c req s).result = { Requeue := true } →
        (Reconcile c req s).err = none ∧
        ∃ pod, storeCalls (Reconcile c req s).events
            = [Event.get req, Event.update (mutate pod)] ∧
          (Reconcile c req s).store = (c.Update (mutate pod) (c.Get req s).2).2 ∧
          ((∀ k t, (c.Get k t).2 = t) →
            (∀ obj t, (c.Update obj t).1 ≠ none → (c.Update obj t).2 = t) →
            (Reconcile c req s).store = s)) := by
  cases hg : (c.Get req s).1 with
  | error e =>
    cases hnf : IsNotFound e with
    | true => rw [Reconcile_get_notFound c req s e hg hnf]; simp
    | false => rw [Reconcile_get_failed c req s e hg hnf]; simp
  | ok pod =>
    by_cases heq : labelShouldBePresent pod = labelIsPresent pod
    · rw [Reconcile_noop c req s pod hg heq]; simp [heq]
    · cases hu : (c.Update (mutate pod) (c.Get req s).2).1 with
      | none => rw [Reconcile_applied c req s pod hg heq hu]; simp [heq, hu]
      | some e =>
        cases hc : IsConflict e with
        | false => rw [Reconcile_update_failed c req s pod e hg heq hu hc]; simp [heq, hu, hc]
        | true =>
          rw [Reconcile_conflict c req s pod e hg heq hu hc]
          refine ⟨⟨fun _ => ⟨pod, e, rfl, heq, hu, hc⟩, fun _ => rfl⟩, fun _ => ⟨rfl, pod, ?_, rfl, ?_⟩⟩
          · simp [storeCalls]
          · intro hread hrej
            have h1 : (c.Get req s).2 = s := hread req s
            have h2 := hrej (mutate pod) (c.Get req s).2 (by rw [hu]; simp)
            simp only
            rw [h2, h1]

/-- C5, on a store that rejects the write with a conflict: the result asks for
a requeue, the error is nil and the store is the one the call started from. -/
theorem Reconcile_requeue_iff_witness :
    (Reconcile (stubClient (Except.ok webPod) (some conflictErr)) webKey []).result
        = { Requeue := true } ∧
      (Reconcile (stubClient (Except.ok webPod) (some conflictErr)) webKey []).err = none ∧
      (Reconcile (stubClient (Except.ok webPod) (some conflictErr)) webKey []).store = [] :=
  ⟨by decide,
    ((Reconcile_requeue_iff (stubClient (Except.ok webPod) (some conflictErr)) webKey []).2
      (by decide)).1,
    by
      obtain ⟨_, _, _, h⟩ :=
        ((Reconcile_requeue_iff (stubClient (Except.ok webPod) (some conflictErr)) webKey []).2
          (by decide)).2
      exact h (fun _ _ => rfl) (fun _ _ _ => rfl)⟩

/-- C6: for every identifier, when the fetch fails with a not-found error
`Reconcile` returns the empty result with a nil error, and its only store call
is the `Get`: no `Update` call is made. -/
theorem Reconcile_notFound {σ : Type} (c : Client σ) (req : NamespacedName) (s : σ)
    (e : APIError) (hget : (c.Get req s).1 = Except.error e) (hnf : IsNotFound e = true) :
    (Reconcile c req s).result = {} ∧ (Reconcile c req s).result.Requeue = false ∧
      (Reconcile c req s).err = none ∧ updates (Reconcile c req s).events = [] ∧
      storeCalls (Reconcile c req s).events = [Event.get req] := by
  rw [Reconcile_get_notFound c req s e hget hnf]
  simp [updates, storeCalls]

/-- C6, on the empty in-memory store. -/
theorem Reconcile_notFound_witness :
    (memClient.Get webKey []).1 = Except.error ⟨"NotFound", "pod not found"⟩ ∧
      IsNotFound ⟨"NotFound", "pod not found"⟩ = true ∧
      ((Reconcile memClient webKey []).result = {} ∧
        (Reconcile memClient webKey []).result.Requeue = false ∧
        (Reconcile memClient webKey []).err = none ∧
        updates (Reconcile memClient webKey []).events = [] ∧
        storeCalls (Reconcile memClient webKey []).events = [Event.get webKey]) :=
  ⟨rfl, by decide, Reconcile_notFound memClient webKey [] ⟨"NotFound", "pod not found"⟩ rfl
    (by decide)⟩

/-- C7: `Reconcile` returns a non-nil error if and only if the fetch failed
with an error that is not not-found, or the `Update` failed with an error that
is not a conflict; the error returned is then the store's error and the result
is empty, and after a failed fetch no `Update` call is made. -/
theorem Reconcile_error_iff {σ : Type} (c : Client σ) (req : NamespacedName) (s : σ) :
    ((Reconcile c req s).err ≠ none ↔
        (∃ e, (c.Get req s).1 = Except.error e ∧ IsNotFound e = false) ∨
        (∃ pod e, (c.Get req s).1 = Except.ok pod ∧
          labelShouldBePresent pod ≠ labelIsPresent pod ∧
          (c.Update (mutate pod) (c.Get req s).2).1 = some e ∧ IsConflict e = false)) ∧
      (∀ e, (c.Get req s).1 = Except.error e → IsNotFound e = false →
        (Reconcile c req s).err = some e ∧ (Reconcile c req s).result = {}) ∧
      (∀ pod e, (c.Get req s).1 = Except.ok pod →
        labelShouldBePresent pod ≠ labelIsPresent pod →
        (c.Update (mutate pod) (c.Get req s).2).1 = some e → IsConflict e = false →
        (Reconcile c req s).err = some e ∧ (Reconcile c req s).result = {}) ∧
      (∀ e, (c.Get req s).1 = Except.error e → updates (Reconcile c req s).events = []) := by
  refine ⟨?_, ?_, ?_, ?_⟩
  · cases hg : (c.Get req s).1 with
    | error e =>
      cases hnf : IsNotFound e with
      | true => rw [Reconcile_get_notFound c req s e hg hnf]; simp [hnf]
      | false => rw [Reconcile_get_failed c req s e hg hnf]; simp [hnf]
    | ok pod =>
      by_cases heq : labelShouldBePresent pod = labelIsPresent pod
      · rw [Reconcile_noop c req s pod hg heq]; simp [heq]
      · cases hu : (c.Update (mutate pod) (c.Get req s).2).1 with
        | none => rw [Reconcile_applied c req s pod hg heq hu]; simp [heq, hu]
        | some e =>
          cases hc : IsConflict e with
          | true => rw [Reconcile_conflict c req s pod e hg heq hu hc]; simp [heq, hu, hc]
          | false =>
            rw [Reconcile_update_failed c req s pod e hg heq hu hc]; simp [heq, hu, hc]
  · intro e hg hnf
    rw [Reconcile_get_failed c req s e hg hnf]
    exact ⟨rfl, rfl⟩
  · intro pod e hg hne hu hc
    rw [Reconcile_update_failed c req s pod e hg hne hu hc]
    exact ⟨rfl, rfl⟩
  · intro e hg
    exact updates_Reconcile_of_error c req s e hg

/-- C7, on a fetch that times out: the timeout is the error returned. -/
theorem Reconcile_error_iff_witness :
    (Reconcile (stubClient (Except.error timeoutErr) none) webKey []).err = some timeoutErr ∧
      (Reconcile (stubClient (Except.error timeoutErr) none) webKey []).result = {} :=
  (Reconcile_error_iff (stubClient (Except.error timeoutErr) none) webKey []).2.1
    timeoutErr rfl (by decide)

/-! ## The in-memory store -/

theorem fetch_key (s : List Pod) (k : NamespacedName) (p : Pod) (h : fetch s k = some p) :
    podKey p = k := by
  induction s with
  | nil => simp [fetch] at h
  | cons q rest ih =>
    by_cases hq : podKey q = k
    · simp [fetch, hq] at h
      subst h
      exact hq
    · simp [fetch, hq] at h
      exact ih h

theorem fetch_put_self (s : List Pod) (obj : Pod) : fetch (put s obj) (podKey obj) = some obj := by
  induction s with
  | nil => simp [put, fetch]
  | cons q rest ih =>
    by_cases hq : podKey q = podKey obj
    · simp [put, fetch, hq]
    · simp [put, fetch, hq, ih]

theorem podKey_mutate (p : Pod) : podKey (mutate p) = podKey p := by
  unfold podKey
  rw [mutate_Name, mutate_Namespace]

theorem memClient_Get_snd (k : NamespacedName) (s : List Pod) : (memClient.Get k s).2 = s := by
  unfold memClient
  simp only
  split <;> rfl

theorem memClient_Get_some (k : NamespacedName) (s : List Pod) (p : Pod)
    (h : fetch s k = some p) : (memClient.Get k s).1 = Except.ok p := by
  simp [memClient, h]

theorem memClient_Get_none (k : NamespacedName) (s : List Pod) (h : fetch s k = none) :
    (memClient.Get k s).1 = Except.error ⟨"NotFound", "pod not found"⟩ := by
  simp [memClient, h]

/-! ## Convergence and the scenarios (C8 - C10) -/

/-- C8 (amended): over the in-memory store, for every identifier with a
non-empty name and every store state, the first of two successive calls of
`Reconcile` ends Applied with one `Update`, or NoOpRequired with none, or
NotFound with none when no pod is stored under the identifier; the second call
ends NoOpRequired (NotFound when no pod is stored under the identifier),
performs no `Update` and leaves the store unchanged. -/
theorem Reconcile_twice (req : NamespacedName) (s : List Pod) (hname : req.Name ≠ "") :
    ((outcomeOf (Reconcile memClient req s) = Outcome.Applied ∧
          (updates (Reconcile memClient req s).events).length = 1) ∨
        (outcomeOf (Reconcile memClient req s) = Outcome.NoOpRequired ∧
          updates (Reconcile memClient req s).events = []) ∨
        (outcomeOf (Reconcile memClient req s) = Outcome.NotFound ∧ fetch s req = none ∧
          updates (Reconcile memClient req s).events = [])) ∧
      (outcomeOf (Reconcile memClient req (Reconcile memClient req s).store)
          = Outcome.NoOpRequired ∨
        (outcomeOf (Reconcile memClient req (Reconcile memClient req s).store)
          = Outcome.NotFound ∧ fetch s req = none)) ∧
      updates (Reconcile memClient req (Reconcile memClient req s).store).events = [] ∧
      (Reconcile memClient req (Reconcile memClient req s).store).store
        = (Reconcile memClient req s).store := by
  cases hf : fetch s req with
  | none =>
    have h1 := Reconcile_get_notFound memClient req s _ (memClient_Get_none req s hf)
      (by decide)
    rw [memClient_Get_snd] at h1
    have hs1 : (Reconcile memClient req s).store = s := by rw [h1]
    rw [hs1, h1]
    simp [outcomeOf, updates]
  | some p =>
    have hget := memClient_Get_some req s p hf
    have hkey := fetch_key s req p hf
    have hp : p.Name ≠ "" := by
      have : p.Name = req.Name := by rw [← hkey]; rfl
      rw [this]; exact hname
    by_cases heq : labelShouldBePresent p = labelIsPresent p
    · have h1 := Reconcile_noop memClient req s p hget heq
      rw [memClient_Get_snd] at h1
      have hs1 : (Reconcile memClient req s).store = s := by rw [h1]
      rw [hs1, h1]
      simp [outcomeOf, updates]
    · have h1 := Reconcile_applied memClient req s p hget heq rfl
      rw [memClient_Get_snd] at h1
      have hs1 : (Reconcile memClient req s).store = put s (mutate p) := by rw [h1]; rfl
      have hf2 : fetch (put s (mutate p)) req = some (mutate p) := by
        have := fetch_put_self s (mutate p)
        rwa [podKey_mutate, hkey] at this
      have hn2 : (mutate p).Name ≠ "" := by rw [mutate_Name]; exact hp
      have heq2 : labelShouldBePresent (mutate p) = labelIsPresent (mutate p) := by
        rw [labelIsPresent_eq_DerivedLabelState _ hn2, DerivedLabelState_mutate,
          labelShouldBePresent_mutate]
      have h2 := Reconcile_noop memClient req (put s (mutate p)) (mutate p)
        (memClient_Get_some req _ _ hf2) heq2
      rw [memClient_Get_snd] at h2
      rw [hs1, h2, h1]
      simp [outcomeOf, updates]

/-- C8, on a store that holds a pod asking for the label: the first call ends
Applied, the second NoOpRequired. -/
theorem Reconcile_twice_witness :
    webKey.Name ≠ "" ∧
      outcomeOf (Reconcile memClient webKey [webPod]) = Outcome.Applied ∧
      outcomeOf (Reconcile memClient webKey (Reconcile memClient webKey [webPod]).store)
        = Outcome.NoOpRequired ∧
      updates (Reconcile memClient webKey (Reconcile memClient webKey [webPod]).store).events
        = [] ∧
      (Reconcile memClient webKey (Reconcile memClient webKey [webPod]).store).store
        = (Reconcile memClient webKey [webPod]).store :=
  ⟨by decide, by decide, by decide,
    (Reconcile_twice webKey [webPod] (by decide)).2.2.1,
    (Reconcile_twice webKey [webPod] (by decide)).2.2.2⟩

/-- C8 as stated fails in two ways: for an identifier under which nothing is
stored the first call ends NotFound; and for a stored pod whose name is the
empty string, without annotation and label, the first call ends Applied and the
second call ends Applied again, with an `Update`. -/
theorem Reconcile_twice_fails :
    outcomeOf (Reconcile memClient webKey []) = Outcome.NotFound ∧
      (Reconcile memClient webKey []).events = [Event.get webKey] ∧
      outcomeOf (Reconcile memClient ⟨"default", ""⟩ [emptyNamePod]) = Outcome.Applied ∧
      outcomeOf (Reconcile memClient ⟨"default", ""⟩
        (Reconcile memClient ⟨"default", ""⟩ [emptyNamePod]).store) = Outcome.Applied ∧
      updates (Reconcile memClient ⟨"default", ""⟩
        (Reconcile memClient ⟨"default", ""⟩ [emptyNamePod]).store).events = [emptyNamePod] := by
  refine ⟨by decide, by decide, by decide, by decide, by decide⟩

/-- C9 (amended): for every fetched pod with a non-empty name whose annotation
`barkardk.info/add-pod-name-label` is `"true"` and whose labels (possibly nil)
do not contain `barkardk.info/pod-name`, `Reconcile` issues one `Update`; the
object passed carries the label with the pod name, and is exactly that single
entry when the labels map was nil; when the `Update` succeeds the outcome is
Applied, with the empty result and a nil error. -/
theorem Reconcile_adds_label {σ : Type} (c : Client σ) (req : NamespacedName) (s : σ)
    (pod : Pod) (hget : (c.Get req s).1 = Except.ok pod) (hname : pod.Name ≠ "")
    (hann : pod.Annotations.lookup addPodNameLabelAnnotation = some "true")
    (hlab : pod.Labels.lookup podNameLabel = none) :
    ∃ obj, updates (Reconcile c req s).events = [obj] ∧
      obj.Labels.lookup podNameLabel = some pod.Name ∧
      (pod.Labels = none → obj.Labels = some [(podNameLabel, pod.Name)]) ∧
      ((c.Update obj (c.Get req s).2).1 = none →
        (Reconcile c req s).result = {} ∧ (Reconcile c req s).err = none ∧
        outcomeOf (Reconcile c req s) = Outcome.Applied) := by
  have hshould : labelShouldBePresent pod = true := by
    simp [labelShouldBePresent, GoMap.get, hann]
  have his : labelIsPresent pod = false := by
    have : ¬ "" = pod.Name := fun h => hname h.symm
    simp [labelIsPresent, GoMap.get, hlab, this]
  have hne : labelShouldBePresent pod ≠ labelIsPresent pod := by
    rw [hshould, his]; decide
  refine ⟨mutate pod, updates_Reconcile_of_ne c req s pod hget hne, ?_, ?_, ?_⟩
  · rw [mutate_lookup_label, hshould]; rfl
  · intro hnil
    simp [mutate, hshould, hnil, Entries.set]
  · intro hok
    rw [Reconcile_applied c req s pod hget hne hok]
    simp [outcomeOf, updates]

/-- C9, on a pod `web` with nil labels that asks for the label. -/
theorem Reconcile_adds_label_witness :
    ∃ obj, updates (Reconcile (stubClient (Except.ok { webPod with Labels := none }) none)
        webKey []).events = [obj] ∧
      obj.Labels.lookup podNameLabel = some "web" ∧
      ((none : GoMap) = none → obj.Labels = some [(podNameLabel, "web")]) ∧
      (((stubClient (Except.ok { webPod with Labels := none }) none).Update obj
          ((stubClient (Except.ok { webPod with Labels := none }) none).Get webKey []).2).1
          = none →
        (Reconcile (stubClient (Except.ok { webPod with Labels := none }) none)
          webKey []).result = {} ∧
        (Reconcile (stubClient (Except.ok { webPod with Labels := none }) none)
          webKey []).err = none ∧
        outcomeOf (Reconcile (stubClient (Except.ok { webPod with Labels := none }) none)
          webKey []) = Outcome.Applied) :=
  Reconcile_adds_label (stubClient (Except.ok { webPod with Labels := none }) none) webKey []
    { webPod with Labels := none } rfl (by decide) (by decide) (by decide)

/-- C9 as stated fails on a pod whose name is the empty string: the annotation
is `"true"` and the label is absent, yet `Reconcile` makes no `Update` call. -/
theorem Reconcile_adds_label_emptyName :
    emptyNameWantsLabel.Annotations.lookup addPodNameLabelAnnotation = some "true" ∧
      emptyNameWantsLabel.Labels.lookup podNameLabel = none ∧
      (Reconcile (stubClient (Except.ok emptyNameWantsLabel) none) ⟨"default", ""⟩ []).events
        = [Event.get ⟨"default", ""⟩, Event.info "no update required"] ∧
      updates (Reconcile (stubClient (Except.ok emptyNameWantsLabel) none)
        ⟨"default", ""⟩ []).events = [] := by
  refine ⟨by decide, by decide, by decide, by decide⟩

/-- C10: for every fetched pod whose annotation
`barkardk.info/add-pod-name-label` is missing and whose label
`barkardk.info/pod-name` equals the pod name, `Reconcile` issues one `Update`
with an object whose labels no longer contain the key; when the `Update`
succeeds the outcome is Applied, with the empty result and a nil error. -/
theorem Reconcile_removes_label {σ : Type} (c : Client σ) (req : NamespacedName) (s : σ)
    (pod : Pod) (hget : (c.Get req s).1 = Except.ok pod)
    (hann : pod.Annotations.lookup addPodNameLabelAnnotation = none)
    (hlab : pod.Labels.lookup podNameLabel = some pod.Name) :
    ∃ obj, updates (Reconcile c req s).events = [obj] ∧
      obj.Labels.lookup podNameLabel = none ∧
      ((c.Update obj (c.Get req s).2).1 = none →
        (Reconcile c req s).result = {} ∧ (Reconcile c req s).err = none ∧
        outcomeOf (Reconcile c req s) = Outcome.Applied) := by
  have hshould : labelShouldBePresent pod = false := by
    simp [labelShouldBePresent, GoMap.get, hann]
  have his : labelIsPresent pod = true := by
    simp [labelIsPresent, GoMap.get, hlab]
  have hne : labelShouldBePresent pod ≠ labelIsPresent pod := by
    rw [hshould, his]; decide
  refine ⟨mutate pod, updates_Reconcile_of_ne c req s pod hget hne, ?_, ?_⟩
  · rw [mutate_lookup_label, hshould]; rfl
  · intro hok
    rw [Reconcile_applied c req s pod hget hne hok]
    simp [outcomeOf, updates]

/-- C10, on a pod `web` that carries the label without asking for it. -/
theorem Reconcile_removes_label_witness :
    ∃ obj, updates (Reconcile (stubClient (Except.ok labelledPod) none) webKey []).events
        = [obj] ∧
      obj.Labels.lookup podNameLabel = none ∧
      (((stubClient (Except.ok labelledPod) none).Update obj
          ((stubClient (Except.ok labelledPod) none).Get webKey []).2).1 = none →
        (Reconcile (stubClient (Except.ok labelledPod) none) webKey []).result = {} ∧
        (Reconcile (stubClient (Except.ok labelledPod) none) webKey []).err = none ∧
        outcomeOf (Reconcile (stubClient (Except.ok labelledPod) none) webKey [])
          = Outcome.Applied) :=
  Reconcile_removes_label (stubClient (Except.ok labelledPod) none) webKey [] labelledPod rfl
    (by decide) (by decide)

/-! ## Helpers for the remaining scenarios -/

theorem mutate_len_add (pod : Pod) (w : String) (hs : labelShouldBePresent pod = true)
    (hl : pod.Labels.lookup podNameLabel = some w) :
    (mutate pod).Labels.len = pod.Labels.len := by
  cases hL : pod.Labels with
  | none => simp [hL, GoMap.lookup] at hl
  | some es =>
    rw [hL] at hl
    simp only [GoMap.lookup] at hl
    simp [mutate, hs, hL, GoMap.len, Entries.len_set_of_present es _ _ w hl]

theorem mutate_len_remove (pod : Pod) (w : String) (hs : labelShouldBePresent pod = false)
    (hl : pod.Labels.lookup podNameLabel = some w) :
    (mutate pod).Labels.len + 1 = pod.Labels.len := by
  cases hL : pod.Labels with
  | none => simp [hL, GoMap.lookup] at hl
  | some es =>
    rw [hL] at hl
    simp only [GoMap.lookup] at hl
    simp [mutate, hs, hL, GoMap.len, GoMap.delete, Entries.len_delete_of_present es _ w hl]

theorem info_Reconcile_of_ne {σ : Type} (c : Client σ) (req : NamespacedName) (s : σ)
    (pod : Pod) (hget : (c.Get req s).1 = Except.ok pod)
    (hne : labelShouldBePresent pod ≠ labelIsPresent pod) (m : String)
    (hm : Event.info m ∈ (Reconcile c req s).events) : m = mutateLog pod := by
  cases hu : (c.Update (mutate pod) (c.Get req s).2).1 with
  | none =>
    rw [Reconcile_applied c req s pod hget hne hu] at hm
    simpa using hm
  | some e =>
    cases hc : IsConflict e with
    | true =>
      rw [Reconcile_conflict c req s pod e hget hne hu hc] at hm
      simpa using hm
    | false =>
      rw [Reconcile_update_failed c req s pod e hget hne hu hc] at hm
      simpa using hm

theorem labelShouldBePresent_false_of_lookup (pod : Pod)
    (hann : pod.Annotations.lookup addPodNameLabelAnnotation ≠ some "true") :
    labelShouldBePresent pod = false := by
  rw [labelShouldBePresent_eq_IntentFlag]
  simp [IntentFlag, hann]

/-! ## Scenario A and the two flags (C11 - C13) -/

/-- C11 (amended): for every fetched pod with a non-empty name whose
annotations do not contain `barkardk.info/add-pod-name-label` and whose labels
do not contain `barkardk.info/pod-name` (either map possibly nil), `Reconcile`
ends NoOpRequired: no `Update` call, the empty result, a nil error, and the
store left as the fetch left it (unchanged when fetches do not write). -/
theorem Reconcile_nothing_to_do {σ : Type} (c : Client σ) (req : NamespacedName) (s : σ)
    (pod : Pod) (hget : (c.Get req s).1 = Except.ok pod) (hname : pod.Name ≠ "")
    (hann : pod.Annotations.lookup addPodNameLabelAnnotation = none)
    (hlab : pod.Labels.lookup podNameLabel = none) :
    outcomeOf (Reconcile c req s) = Outcome.NoOpRequired ∧
      updates (Reconcile c req s).events = [] ∧
      (Reconcile c req s).result = {} ∧ (Reconcile c req s).err = none ∧
      (Reconcile c req s).store = (c.Get req s).2 ∧
      ((∀ k t, (c.Get k t).2 = t) → (Reconcile c req s).store = s) := by
  have hshould : labelShouldBePresent pod = false :=
    labelShouldBePresent_false_of_lookup pod (by rw [hann]; simp)
  have his : labelIsPresent pod = false := by
    have : ¬ "" = pod.Name := fun h => hname h.symm
    simp [labelIsPresent, GoMap.get, hlab, this]
  have heq : labelShouldBePresent pod = labelIsPresent pod := by rw [hshould, his]
  rw [Reconcile_noop c req s pod hget heq]
  refine ⟨by simp [outcomeOf, updates], rfl, rfl, rfl, rfl, fun h => h req s⟩

/-- C11, on the in-memory store holding a pod `web` with neither the
annotation nor the label. -/
theorem Reconcile_nothing_to_do_witness :
    (memClient.Get webKey [plainPod]).1 = Except.ok plainPod ∧ plainPod.Name ≠ "" ∧
      plainPod.Annotations.lookup addPodNameLabelAnnotation = none ∧
      plainPod.Labels.lookup podNameLabel = none ∧
      outcomeOf (Reconcile memClient webKey [plainPod]) = Outcome.NoOpRequired ∧
      updates (Reconcile memClient webKey [plainPod]).events = [] ∧
      (Reconcile memClient webKey [plainPod]).result = {} ∧
      (Reconcile memClient webKey [plainPod]).err = none ∧
      (Reconcile memClient webKey [plainPod]).store = [plainPod] :=
  have h := Reconcile_nothing_to_do memClient webKey [plainPod] plainPod rfl
    (by decide) (by decide) (by decide)
  ⟨rfl, by decide, by decide, by decide, h.1, h.2.1, h.2.2.1, h.2.2.2.1,
    h.2.2.2.2.2 (fun k t => memClient_Get_snd k t)⟩

/-- C11 as stated fails on a pod whose name is the empty string: it has
neither the annotation nor the label, yet `Reconcile` calls `Update` and ends
Applied. -/
theorem Reconcile_nothing_to_do_emptyName :
    emptyNamePod.Annotations.lookup addPodNameLabelAnnotation = none ∧
      emptyNamePod.Labels.lookup podNameLabel = none ∧
      updates (Reconcile memClient ⟨"default", ""⟩ [emptyNamePod]).events = [emptyNamePod] ∧
      outcomeOf (Reconcile memClient ⟨"default", ""⟩ [emptyNamePod]) = Outcome.Applied := by
  refine ⟨by decide, by decide, by decide, by decide⟩

/-- C12 (amended): for every labels map (including nil) and every non-empty
pod name, `labelIsPresent` is true if and only if the key
`barkardk.info/pod-name` is present with value equal to the pod name; presence
with another value, or absence of the key, gives false. -/
theorem labelIsPresent_iff (pod : Pod) (hname : pod.Name ≠ "") :
    (labelIsPresent pod = true ↔ pod.Labels.lookup podNameLabel = some pod.Name) ∧
      (∀ v, pod.Labels.lookup podNameLabel = some v → v ≠ pod.Name →
        labelIsPresent pod = false) ∧
      (pod.Labels.lookup podNameLabel = none → labelIsPresent pod = false) ∧
      (pod.Labels = none → labelIsPresent pod = false) := by
  have hne : ¬ "" = pod.Name := fun h => hname h.symm
  refine ⟨?_, ?_, ?_, ?_⟩
  · rw [labelIsPresent_eq_DerivedLabelState pod hname]
    simp [DerivedLabelState]
  · intro v hv hvn
    simp [labelIsPresent, GoMap.get, hv, hvn]
  · intro hv
    simp [labelIsPresent, GoMap.get, hv, hne]
  · intro hv
    simp [labelIsPresent, GoMap.get, GoMap.lookup, hv, hne]

/-- C12, on a pod `web` that carries the label with its name. -/
theorem labelIsPresent_iff_witness :
    labelledPod.Name ≠ "" ∧
      (labelIsPresent labelledPod = true ↔
        labelledPod.Labels.lookup podNameLabel = some labelledPod.Name) :=
  ⟨by decide, (labelIsPresent_iff labelledPod (by decide)).1⟩

/-- C12 as stated fails for the empty pod name and a nil labels map: the key is
absent and `labelIsPresent` is true. -/
theorem labelIsPresent_emptyName :
    emptyNamePod.Labels.lookup podNameLabel = none ∧ labelIsPresent emptyNamePod = true := by
  refine ⟨by decide, by decide⟩

/-- C13: for every annotations map (including nil), `labelShouldBePresent` is
true if and only if the key `barkardk.info/add-pod-name-label` is present with
value exactly `"true"`; a nil map, a missing key or any other value (such as
`"True"`, `"TRUE"`, `"1"`, `" true"`, `""`) gives false. -/
theorem labelShouldBePresent_iff (pod : Pod) :
    (labelShouldBePresent pod = true ↔
        pod.Annotations.lookup addPodNameLabelAnnotation = some "true") ∧
      (pod.Annotations = none → labelShouldBePresent pod = false) ∧
      (pod.Annotations.lookup addPodNameLabelAnnotation = none →
        labelShouldBePresent pod = false) ∧
      (∀ v, pod.Annotations.lookup addPodNameLabelAnnotation = some v → v ≠ "true" →
        labelShouldBePresent pod = false) ∧
      (∀ v ∈ ["True", "TRUE", "1", " true", ""],
        pod.Annotations.lookup addPodNameLabelAnnotation = some v →
        labelShouldBePresent pod = false) := by
  refine ⟨?_, ?_, ?_, ?_, ?_⟩
  · rw [labelShouldBePresent_eq_IntentFlag]
    simp [IntentFlag]
  · intro h
    apply labelShouldBePresent_false_of_lookup
    simp [h, GoMap.lookup]
  · intro h
    apply labelShouldBePresent_false_of_lookup
    simp [h]
  · intro v hv hvn
    apply labelShouldBePresent_false_of_lookup
    simp [hv, hvn]
  · intro v hmem hv
    apply labelShouldBePresent_false_of_lookup
    rw [hv]
    intro h
    have hv2 : v = "true" := by simpa using h
    subst hv2
    revert hmem
    decide

/-! ## Store calls, stale labels and noninterference (C14 - C18) -/

/-- C14: for every client, identifier and store state, the store calls of one
`Reconcile` are either the one `Get` alone, or the one `Get`, which succeeded,
followed by one `Update`; so there is at most one `Update` call, and none is
repeated whatever it returns. -/
theorem Reconcile_store_calls {σ : Type} (c : Client σ) (req : NamespacedName) (s : σ) :
    ((storeCalls (Reconcile c req s).events = [Event.get req] ∧
          updates (Reconcile c req s).events = []) ∨
        ∃ pod, (c.Get req s).1 = Except.ok pod ∧
          storeCalls (Reconcile c req s).events
            = [Event.get req, Event.update (mutate pod)] ∧
          updates (Reconcile c req s).events = [mutate pod]) ∧
      (updates (Reconcile c req s).events).length ≤ 1 := by
  cases hg : (c.Get req s).1 with
  | error e =>
    cases hnf : IsNotFound e with
    | true => rw [Reconcile_get_notFound c req s e hg hnf]; simp [storeCalls, updates]
    | false => rw [Reconcile_get_failed c req s e hg hnf]; simp [storeCalls, updates]
  | ok pod =>
    by_cases heq : labelShouldBePresent pod = labelIsPresent pod
    · rw [Reconcile_noop c req s pod hg heq]; simp [storeCalls, updates]
    · cases hu : (c.Update (mutate pod) (c.Get req s).2).1 with
      | none => rw [Reconcile_applied c req s pod hg heq hu]; simp [storeCalls, updates]
      | some e =>
        cases hc : IsConflict e with
        | true =>
          rw [Reconcile_conflict c req s pod e hg heq hu hc]; simp [storeCalls, updates]
        | false =>
          rw [Reconcile_update_failed c req s pod e hg heq hu hc]
          simp [storeCalls, updates]

/-- C14, on a store that rejects the write with a conflict: the `Update` is
made once and not repeated. -/
theorem Reconcile_store_calls_witness :
    (updates (Reconcile (stubClient (Except.ok webPod) (some conflictErr)) webKey []).events).length
      ≤ 1 :=
  (Reconcile_store_calls (stubClient (Except.ok webPod) (some conflictErr)) webKey []).2

/-- C15: for every fetched pod whose annotation
`barkardk.info/add-pod-name-label` is `"true"` and whose label
`barkardk.info/pod-name` is present with a value different from the pod name,
`Reconcile` issues one `Update` whose object carries the label with the pod
name and has as many label keys as the fetched pod. -/
theorem Reconcile_overwrites_label {σ : Type} (c : Client σ) (req : NamespacedName) (s : σ)
    (pod : Pod) (v : String) (hget : (c.Get req s).1 = Except.ok pod)
    (hann : pod.Annotations.lookup addPodNameLabelAnnotation = some "true")
    (hlab : pod.Labels.lookup podNameLabel = some v) (hv : v ≠ pod.Name) :
    ∃ obj, updates (Reconcile c req s).events = [obj] ∧
      obj.Labels.lookup podNameLabel = some pod.Name ∧
      obj.Labels.len = pod.Labels.len := by
  have hshould : labelShouldBePresent pod = true := by
    simp [labelShouldBePresent, GoMap.get, hann]
  have his : labelIsPresent pod = false := by
    simp [labelIsPresent, GoMap.get, hlab, hv]
  have hne : labelShouldBePresent pod ≠ labelIsPresent pod := by
    rw [hshould, his]; decide
  refine ⟨mutate pod, updates_Reconcile_of_ne c req s pod hget hne, ?_, ?_⟩
  · rw [mutate_lookup_label, hshould]; rfl
  · exact mutate_len_add pod v hshould hlab

/-- C15, on a pod `web` whose label holds `old`: the object written holds
`web` and still has two label keys. -/
theorem Reconcile_overwrites_label_witness :
    ((stubClient (Except.ok wrongValuePod) none).Get webKey []).1 = Except.ok wrongValuePod ∧
      wrongValuePod.Annotations.lookup addPodNameLabelAnnotation = some "true" ∧
      wrongValuePod.Labels.lookup podNameLabel = some "old" ∧ "old" ≠ wrongValuePod.Name ∧
      wrongValuePod.Labels.len = 2 ∧
      ∃ obj, updates (Reconcile (stubClient (Except.ok wrongValuePod) none) webKey []).events
          = [obj] ∧
        obj.Labels.lookup podNameLabel = some wrongValuePod.Name ∧
        obj.Labels.len = wrongValuePod.Labels.len :=
  ⟨rfl, by decide, by decide, by decide, by decide,
    Reconcile_overwrites_label (stubClient (Except.ok wrongValuePod) none) webKey []
      wrongValuePod "old" rfl (by decide) (by decide) (by decide)⟩

/-- C16: for every fetched pod whose annotation
`barkardk.info/add-pod-name-label` is not exactly `"true"` and whose label
`barkardk.info/pod-name` is present with a value different from the pod name,
`Reconcile` takes the no-update return: no `Update` call, the empty result, a
nil error, and the store left as the fetch left it, so the label stays. -/
theorem Reconcile_keeps_stale_label {σ : Type} (c : Client σ) (req : NamespacedName) (s : σ)
    (pod : Pod) (v : String) (hget : (c.Get req s).1 = Except.ok pod)
    (hann : pod.Annotations.lookup addPodNameLabelAnnotation ≠ some "true")
    (hlab : pod.Labels.lookup podNameLabel = some v) (hv : v ≠ pod.Name) :
    updates (Reconcile c req s).events = [] ∧
      (Reconcile c req s).events = [Event.get req, Event.info "no update required"] ∧
      (Reconcile c req s).result = {} ∧ (Reconcile c req s).err = none ∧
      (Reconcile c req s).store = (c.Get req s).2 := by
  have hshould : labelShouldBePresent pod = false :=
    labelShouldBePresent_false_of_lookup pod hann
  have his : labelIsPresent pod = false := by
    simp [labelIsPresent, GoMap.get, hlab, hv]
  have heq : labelShouldBePresent pod = labelIsPresent pod := by rw [hshould, his]
  rw [Reconcile_noop c req s pod hget heq]
  exact ⟨rfl, rfl, rfl, rfl, rfl⟩

/-- C16, on the in-memory store holding a pod `web` whose annotation is
`"false"` and whose label holds `old`: the stored pod is untouched. -/
theorem Reconcile_keeps_stale_label_witness :
    (memClient.Get webKey [stalePod]).1 = Except.ok stalePod ∧
      stalePod.Annotations.lookup addPodNameLabelAnnotation ≠ some "true" ∧
      stalePod.Labels.lookup podNameLabel = some "old" ∧ "old" ≠ stalePod.Name ∧
      updates (Reconcile memClient webKey [stalePod]).events = [] ∧
      (Reconcile memClient webKey [stalePod]).result = {} ∧
      (Reconcile memClient webKey [stalePod]).err = none ∧
      (Reconcile memClient webKey [stalePod]).store = [stalePod] :=
  have h := Reconcile_keeps_stale_label memClient webKey [stalePod] stalePod "old" rfl
    (by decide) (by decide) (by decide)
  ⟨rfl, by decide, by decide, by decide, h.1, h.2.2.1, h.2.2.2.1, h.2.2.2.2⟩

/-- C17: for every fetched pod on which `Reconcile` runs the deletion branch
(its log line `removing label` is written), the read
`pod.Labels[barkardk.info/pod-name]` equals the pod name; for a non-empty name
the key is present with that value and the object passed to `Update` has
exactly one label key fewer than the fetched pod. -/
theorem Reconcile_delete_only_when_equal {σ : Type} (c : Client σ) (req : NamespacedName)
    (s : σ) (pod : Pod) (hget : (c.Get req s).1 = Except.ok pod)
    (hdel : Event.info "removing label" ∈ (Reconcile c req s).events) :
    pod.Labels.get podNameLabel = pod.Name ∧
      (pod.Name ≠ "" →
        pod.Labels.lookup podNameLabel = some pod.Name ∧
        ∃ obj, updates (Reconcile c req s).events = [obj] ∧
          obj.Labels.lookup podNameLabel = none ∧
          obj.Labels.len + 1 = pod.Labels.len) := by
  by_cases heq : labelShouldBePresent pod = labelIsPresent pod
  · rw [Reconcile_noop c req s pod hget heq] at hdel
    simp at hdel
  · have hlog := info_Reconcile_of_ne c req s pod hget heq _ hdel
    have hshould : labelShouldBePresent pod = false := by
      cases h : labelShouldBePresent pod with
      | false => rfl
      | true =>
        rw [mutateLog, h] at hlog
        simp at hlog
    have his : labelIsPresent pod = true := by
      cases h : labelIsPresent pod with
      | true => rfl
      | false => rw [hshould, h] at heq; exact absurd rfl heq
    have hread : pod.Labels.get podNameLabel = pod.Name := by
      simpa [labelIsPresent] using his
    refine ⟨hread, fun hname => ?_⟩
    have hlook : pod.Labels.lookup podNameLabel = some pod.Name := by
      cases hl : pod.Labels.lookup podNameLabel with
      | none =>
        rw [GoMap.get, hl] at hread
        exact absurd hread.symm hname
      | some w =>
        rw [GoMap.get, hl] at hread
        simpa using hread
    refine ⟨hlook, mutate pod, updates_Reconcile_of_ne c req s pod hget heq, ?_, ?_⟩
    · rw [mutate_lookup_label, hshould]; rfl
    · exact mutate_len_remove pod pod.Name hshould hlook

/-- C17, on a pod `web` that carries the label without asking for it: two
label keys before, one in the object written. -/
theorem Reconcile_delete_only_when_equal_witness :
    ((stubClient (Except.ok labelledPod) none).Get webKey []).1 = Except.ok labelledPod ∧
      Event.info "removing label" ∈
        (Reconcile (stubClient (Except.ok labelledPod) none) webKey []).events ∧
      labelledPod.Labels.len = 2 ∧
      labelledPod.Labels.get podNameLabel = labelledPod.Name ∧
      (labelledPod.Name ≠ "" →
        labelledPod.Labels.lookup podNameLabel = some labelledPod.Name ∧
        ∃ obj, updates (Reconcile (stubClient (Except.ok labelledPod) none) webKey []).events
            = [obj] ∧
          obj.Labels.lookup podNameLabel = none ∧
          obj.Labels.len + 1 = labelledPod.Labels.len) :=
  ⟨rfl, by decide, by decide,
    Reconcile_delete_only_when_equal (stubClient (Except.ok labelledPod) none) webKey []
      labelledPod rfl (by decide)⟩

/-- C18: for any two clients, store states and identifiers whose fetched pods
agree on the value-or-absence of the annotation
`barkardk.info/add-pod-name-label`, on the value-or-absence of the label
`barkardk.info/pod-name` and on the pod name, and whose `Update` gives the same
response, `Reconcile` takes the same decision (no update, add or remove), makes
as many `Update` calls and returns the same result and error. -/
theorem Reconcile_noninterference {σ τ : Type} (c : Client σ) (d : Client τ)
    (req req2 : NamespacedName) (s : σ) (t : τ) (pod pod2 : Pod)
    (hget : (c.Get req s).1 = Except.ok pod) (hget2 : (d.Get req2 t).1 = Except.ok pod2)
    (hann : pod.Annotations.lookup addPodNameLabelAnnotation
      = pod2.Annotations.lookup addPodNameLabelAnnotation)
    (hlab : pod.Labels.lookup podNameLabel = pod2.Labels.lookup podNameLabel)
    (hname : pod.Name = pod2.Name)
    (hupd : (c.Update (mutate pod) (c.Get req s).2).1
      = (d.Update (mutate pod2) (d.Get req2 t).2).1) :
    decision pod = decision pod2 ∧
      (updates (Reconcile c req s).events).length
        = (updates (Reconcile d req2 t).events).length ∧
      (Reconcile c req s).result = (Reconcile d req2 t).result ∧
      (Reconcile c req s).err = (Reconcile d req2 t).err := by
  have hs : labelShouldBePresent pod = labelShouldBePresent pod2 := by
    simp [labelShouldBePresent, GoMap.get, hann]
  have hi : labelIsPresent pod = labelIsPresent pod2 := by
    simp [labelIsPresent, GoMap.get, hlab, hname]
  have hd : decision pod = decision pod2 := by
    simp [decision, hs, hi]
  refine ⟨hd, ?_⟩
  by_cases heq : labelShouldBePresent pod = labelIsPresent pod
  · have heq2 : labelShouldBePresent pod2 = labelIsPresent pod2 := by rw [← hs, ← hi]; exact heq
    rw [Reconcile_noop c req s pod hget heq, Reconcile_noop d req2 t pod2 hget2 heq2]
    exact ⟨rfl, rfl, rfl⟩
  · have heq2 : labelShouldBePresent pod2 ≠ labelIsPresent pod2 := by rw [← hs, ← hi]; exact heq
    cases hu : (c.Update (mutate pod) (c.Get req s).2).1 with
    | none =>
      have hu2 : (d.Update (mutate pod2) (d.Get req2 t).2).1 = none := by rw [← hupd, hu]
      rw [Reconcile_applied c req s pod hget heq hu,
        Reconcile_applied d req2 t pod2 hget2 heq2 hu2]
      exact ⟨rfl, rfl, rfl⟩
    | some e =>
      have hu2 : (d.Update (mutate pod2) (d.Get req2 t).2).1 = some e := by rw [← hupd, hu]
      cases hc : IsConflict e with
      | true =>
        rw [Reconcile_conflict c req s pod e hget heq hu hc,
          Reconcile_conflict d req2 t pod2 e hget2 heq2 hu2 hc]
        exact ⟨rfl, rfl, rfl⟩
      | false =>
        rw [Reconcile_update_failed c req s pod e hget heq hu hc,
          Reconcile_update_failed d req2 t pod2 e hget2 heq2 hu2 hc]
        exact ⟨rfl, rfl, rfl⟩

/-- C18, on two pods `web` in different namespaces with different versions,
other labels and other annotations, one behind the stub client after earlier
writes and one in the in-memory store. -/
theorem Reconcile_noninterference_witness :
    decision webPod = decision otherWebPod ∧
      (updates (Reconcile (stubClient (Except.ok webPod) none) webKey [plainPod]).events).length
        = (updates (Reconcile memClient ⟨"staging", "web"⟩ [otherWebPod]).events).length ∧
      (Reconcile (stubClient (Except.ok webPod) none) webKey [plainPod]).result
        = (Reconcile memClient ⟨"staging", "web"⟩ [otherWebPod]).result ∧
      (Reconcile (stubClient (Except.ok webPod) none) webKey [plainPod]).err
        = (Reconcile memClient ⟨"staging", "web"⟩ [otherWebPod]).err :=
  Reconcile_noninterference (stubClient (Except.ok webPod) none) memClient webKey
    ⟨"staging", "web"⟩ [plainPod] [otherWebPod] webPod otherWebPod rfl rfl (by decide)
    (by decide) (by decide) rfl

end PodController
